import Mathlib

set_option maxRecDepth 100000

/-!
Verification of the HST history-file parser (src/hst_reader.ts).

The parser is shallowly embedded: the mutable `HSTParser` object becomes an
explicit state record `PState`, each method becomes a function
`PState → Except Err Candle × PState` returning both the thrown-or-returned
result and the object state after the call (JavaScript field mutations
performed before a `throw` persist, so the state is returned in both cases).
JavaScript numbers are modelled as `Int` where the source only ever stores
integers (byte offsets, sizes) and as `Rat` where the source can produce
fractions (the candle index arithmetic in `getCandleAt`).  `Buffer` reads
become pure functions over `List Nat` (the file bytes), with reads past the
end of the file yielding the zero bytes that `fs.readSync` leaves in a fresh
zero-filled buffer.  IEEE-754 doubles never influence control flow or any
claim, so a `double` field is kept as its raw little-endian byte pattern.
-/

/-- Error kinds thrown by the parser, one per `throw new Error(...)` site
reachable from an open parser. -/
inductive Err where
  | fileTooSmall
  | endOfFile
  | startOfFile
  | candleNotFound
deriving DecidableEq, Repr

/-- Field decode kinds appearing in the per-version field table
(the keys of `parserFunctions` in `readCandle`). -/
inductive FieldType where
  | date
  | double
  | i32
  | undef
deriving DecidableEq, Repr

/-- Field names of the candle records (the keys of the `parserData`
tables, as a closed enumeration). -/
inductive FieldKey where
  | timestamp
  | openPrice
  | highPrice
  | lowPrice
  | closePrice
  | volume
  | spread
  | realVolume
deriving DecidableEq, Repr

/-- Decoded field values.  A `double` field is kept as its raw 8-byte
little-endian pattern (`rawV`); no claim depends on IEEE-754 semantics. -/
inductive Value where
  | dateV (t : Int)
  | rawV (bits : List Nat)
  | intV (n : Int)
  | constV (n : Int)
  | undefV
deriving DecidableEq, Repr

/-- One entry of a per-version field table: a constant `value` (assigned
directly, no I/O) or a field read from disk with a byte `size`, a byte
`position` within the record and a decode kind `ftype`. -/
structure FieldSpec where
  value : Option Int
  size : Nat
  position : Nat
  ftype : FieldType
deriving DecidableEq, Repr

/-- A decoded candle record: field name to decoded value, in table order. -/
abbrev Candle := List (FieldKey × Value)

/-- The state of an `HSTParser` object: the header fields, the cursor
(`candleNumber`, `byteOffset`), the record size, the file size and the file
bytes (standing in for the file descriptor). -/
structure PState where
  version : Int
  symbol : List Nat
  period : Int
  start : Int
  candleNumber : Rat
  byteOffset : Int
  candleByteSize : Int
  filesize : Int
  file : List Nat
deriving DecidableEq, Repr

/-- Byte of the file at (integer) position `i`; positions past the end of
the file read as `0` (a zero-filled buffer that `fs.readSync` left
untouched), and negative positions never occur on decoded offsets. -/
def byteAt (file : List Nat) (i : Int) : Nat :=
  if 0 ≤ i then (file.getD i.toNat 0) % 256 else 0

/-- The contents of a fresh `size`-byte buffer after
`fs.readSync(fd, buf, 0, size, pos)`. -/
def bufferOf (file : List Nat) (pos : Int) (size : Nat) : List Nat :=
  (List.range size).map (fun k => byteAt file (pos + (k : Int)))

/-- `Buffer.readInt32LE(0)`: 4-byte little-endian two's-complement signed
integer from the start of a buffer. -/
def readInt32LE (buf : List Nat) : Int :=
  let u : Nat := (buf.getD 0 0) % 256 + 256 * ((buf.getD 1 0) % 256) +
    65536 * ((buf.getD 2 0) % 256) + 16777216 * ((buf.getD 3 0) % 256)
  if u < 2147483648 then (u : Int) else (u : Int) - 4294967296

/-- The `date` entry of `parserFunctions` in `readCandle`: read an int32
and, when the version is the legacy code 400, scale seconds to
milliseconds. -/
def parseDate (version : Int) (buffer : List Nat) : Int :=
  let timestamp := readInt32LE buffer
  if version = 400 then timestamp * 1000 else timestamp

/-- Modelled from the spec: the `parserData` module (the per-version field
tables) is imported by `hst_reader.ts` but its source is not part of the
given sources.  The tables follow spec sections 4.1 and 6: the legacy
version 400 is a 44-byte record `timestamp(date,4)@0, open(8)@4, low(8)@12,
high(8)@20, close(8)@28, volume(8)@36` with the newer-layout-only fields
present as constant `0`; the newer layout keeps the spec's field order
`timestamp(4), open(8), high(8), low(8), close(8), volume(8), spread(4),
realVolume(8)` at consecutive positions. -/
def parserData (version : Int) : List (FieldKey × FieldSpec) :=
  if version = 400 then
    [(FieldKey.timestamp, ⟨none, 4, 0, FieldType.date⟩),
     (FieldKey.openPrice, ⟨none, 8, 4, FieldType.double⟩),
     (FieldKey.lowPrice, ⟨none, 8, 12, FieldType.double⟩),
     (FieldKey.highPrice, ⟨none, 8, 20, FieldType.double⟩),
     (FieldKey.closePrice, ⟨none, 8, 28, FieldType.double⟩),
     (FieldKey.volume, ⟨none, 8, 36, FieldType.double⟩),
     (FieldKey.spread, ⟨some 0, 0, 0, FieldType.undef⟩),
     (FieldKey.realVolume, ⟨some 0, 0, 0, FieldType.undef⟩)]
  else
    [(FieldKey.timestamp, ⟨none, 4, 0, FieldType.date⟩),
     (FieldKey.openPrice, ⟨none, 8, 4, FieldType.double⟩),
     (FieldKey.highPrice, ⟨none, 8, 12, FieldType.double⟩),
     (FieldKey.lowPrice, ⟨none, 8, 20, FieldType.double⟩),
     (FieldKey.closePrice, ⟨none, 8, 28, FieldType.double⟩),
     (FieldKey.volume, ⟨none, 8, 36, FieldType.double⟩),
     (FieldKey.spread, ⟨none, 4, 44, FieldType.i32⟩),
     (FieldKey.realVolume, ⟨none, 8, 48, FieldType.double⟩)]

/-- Decode one field table entry at record base offset `off`: a constant
`value` is assigned directly; otherwise `data.size` bytes are read at
`byteOffset + data.position` and handed to the parser function selected by
`data.type`. -/
def decodeField (version : Int) (file : List Nat) (off : Int) (d : FieldSpec) : Value :=
  match d.value with
  | some v => Value.constV v
  | none =>
    let buf := bufferOf file (off + (d.position : Int)) d.size
    match d.ftype with
    | FieldType.date => Value.dateV (parseDate version buf)
    | FieldType.double => Value.rawV buf
    | FieldType.i32 => Value.intV (readInt32LE buf)
    | FieldType.undef => Value.undefV

/-- `readCandle`: clamp `byteOffset` up to the 148-byte header end
(persisting that mutation in the state), then decode every field of the
active version's table at the clamped offset. -/
def readCandle (s : PState) : Candle × PState :=
  let bo : Int := if s.byteOffset < 148 then 148 else s.byteOffset
  let s1 : PState := { s with byteOffset := bo }
  (((parserData s1.version).map (fun kd => (kd.1, decodeField s1.version s1.file bo kd.2))), s1)

/-- `candle.timestamp.getTime()`: the millisecond value of the decoded
timestamp field. -/
def candleTimestamp (c : Candle) : Int :=
  match c.lookup FieldKey.timestamp with
  | some (Value.dateV t) => t
  | _ => 0

/-- `getNextCandle`: advance one record if it still fits in the file,
else throw `Already at end of file`; decode after advancing. -/
def getNextCandle (s : PState) : Except Err Candle × PState :=
  if s.byteOffset + s.candleByteSize ≤ s.filesize then
    let s1 : PState := { s with byteOffset := s.byteOffset + s.candleByteSize,
                                candleNumber := s.candleNumber + 1 }
    let p := readCandle s1
    (Except.ok p.1, p.2)
  else
    (Except.error Err.endOfFile, s)

/-- `getPrevCandle`: retreat one record if that stays at or after the
header end, else throw `Already at start of file`; decode after
retreating. -/
def getPrevCandle (s : PState) : Except Err Candle × PState :=
  if 148 ≤ s.byteOffset - s.candleByteSize then
    let s1 : PState := { s with byteOffset := s.byteOffset - s.candleByteSize,
                                candleNumber := s.candleNumber - 1 }
    let p := readCandle s1
    (Except.ok p.1, p.2)
  else
    (Except.error Err.startOfFile, s)

/-- `getCandleNumber`: store the requested index in `candleNumber` (before
any check), compute `newByteOffset = 148 + index * candleByteSize`, decode
if that is strictly below the file size and throw `File too small`
otherwise.  Note the source computes `newByteOffset` into a local constant
and never assigns it to `this.byteOffset`. -/
def getCandleNumber (s : PState) (candleNumber : Rat) : Except Err Candle × PState :=
  let s0 : PState := { s with candleNumber := candleNumber }
  let newByteOffset : Rat := 148 + candleNumber * (s0.candleByteSize : Rat)
  if newByteOffset < (s0.filesize : Rat) then
    let p := readCandle s0
    (Except.ok p.1, p.2)
  else
    (Except.error Err.fileTooSmall, s0)

/-- The outcome of one body evaluation of `getCandleAt` at attempt `i`:
either the call finishes with `done` (a returned candle or a thrown error,
with the object state), or it reaches one of the two recursive calls and
continues with `again` (the state and the new `startDate` anchor of that
call).  Both recursive calls in the source lie under an `attempt < 50`
guard, recorded here so that the recursion visibly terminates. -/
inductive SearchStep (i : Nat) where
  | done (r : Except Err Candle × PState)
  | again (s1 : PState) (anchor : Int) (h : i < 50)

/-- The body of `getCandleAt(date, startDate, i)`, with the two recursive
call sites replaced by `SearchStep.again`: estimate a candle-count offset
from the time distance, seek there (a thrown seek error propagates with its
state), return the candle on an exact timestamp match, otherwise re-anchor
on the candidate's timestamp — or on the record at half the current candle
number when that timestamp is zero — while fewer than 50 attempts were
made, and throw `Candle not found` once the attempts are exhausted. -/
def getCandleAtStep (s : PState) (date : Int) (startDate : Int) (i : Nat) : SearchStep i :=
  let candleOffset : Rat := ((date : Rat) - (startDate : Rat)) / (60000 * (s.period : Rat))
  match getCandleNumber s (s.candleNumber + candleOffset) with
  | (Except.error e, s1) => SearchStep.done (Except.error e, s1)
  | (Except.ok candle, s1) =>
    if candleTimestamp candle = date then
      SearchStep.done (Except.ok candle, s1)
    else if h1 : i < 50 ∧ candleTimestamp candle ≠ 0 then
      SearchStep.again s1 (candleTimestamp candle) h1.1
    else if h2 : i < 50 then
      match getCandleNumber s1 ((Rat.floor (s1.candleNumber / 2) : Int) : Rat) with
      | (Except.error e, s2) => SearchStep.done (Except.error e, s2)
      | (Except.ok candle2, s2) => SearchStep.again s2 (candleTimestamp candle2) h2
    else
      SearchStep.done (Except.error Err.candleNotFound, s1)

/-- The recursion of `getCandleAt`, run with an explicit attempt budget
`n`: run the body and continue with the attempt counter incremented
whenever the body reaches a recursive call.  The budget is always called
with `n = 50 - i`, so whenever it reaches 0 the counter `i` is at least 50
and the body can no longer ask to recurse (`SearchStep.again` carries
`i < 50`); the `again` arm of the budget-0 case is therefore dead code and
its value is arbitrary. -/
def getCandleAtAux : Nat → PState → Int → Int → Nat → Except Err Candle × PState
  | 0, s, date, startDate, i =>
    (match getCandleAtStep s date startDate i with
     | SearchStep.done r => r
     | SearchStep.again s1 _anchor _h => (Except.error Err.candleNotFound, s1))
  | n + 1, s, date, startDate, i =>
    (match getCandleAtStep s date startDate i with
     | SearchStep.done r => r
     | SearchStep.again s1 anchor _h => getCandleAtAux n s1 date anchor (i + 1))

/-- `getCandleAt(date, startDate, i)`: run the body, recursing with the
attempt counter incremented whenever the body reaches a recursive call;
the recursion depth is bounded by the remaining attempt budget `50 - i`. -/
def getCandleAt (s : PState) (date : Int) (startDate : Int) (i : Nat) :
    Except Err Candle × PState :=
  getCandleAtAux (50 - i) s date startDate i

/-- Fuel-indexed variant of `getCandleAt`, recursing on an explicit fuel
and answering `none` when the fuel runs out; used to state that the
recursion depth of `getCandleAt` is bounded. -/
def getCandleAtFuel (fuel : Nat) (s : PState) (date : Int) (startDate : Int) (i : Nat) :
    Option (Except Err Candle × PState) :=
  match fuel with
  | 0 => none
  | fuel' + 1 =>
    match getCandleAtStep s date startDate i with
    | SearchStep.done r => some r
    | SearchStep.again s1 anchor _h => getCandleAtFuel fuel' s1 date anchor (i + 1)

/-- The constructor of `HSTParser` on an existing file, given its bytes:
reject files below 148 bytes, read the header fields through a running
local byte offset exactly as the source does, and initialize the record
size and the cursor. -/
def openFile (file : List Nat) : Except Err PState :=
  let filesize : Int := (file.length : Int)
  if filesize < 148 then Except.error Err.fileTooSmall else
  let bo0 : Int := 0
  let versionBuf := bufferOf file bo0 4
  let bo1 : Int := bo0 + 64 + 4
  let symbolBuf := bufferOf file bo1 12
  let bo2 : Int := bo1 + 12
  let periodBuf := bufferOf file bo2 4
  let startBuf := bufferOf file 148 4
  let version := readInt32LE versionBuf
  let candleByteSize : Int := if version = 400 then 44 else 60
  Except.ok
    { version := version
      symbol := symbolBuf
      period := readInt32LE periodBuf
      start := readInt32LE startBuf * 1000
      candleNumber := 0
      byteOffset := 148 - candleByteSize
      candleByteSize := candleByteSize
      filesize := filesize
      file := file }

/-- Whether a call returned normally (`Except.ok`) or threw. -/
def exceptIsOk (r : Except Err Candle) : Bool :=
  match r with
  | Except.ok _ => true
  | Except.error _ => false

instance {ε α : Type} [DecidableEq ε] [DecidableEq α] : DecidableEq (Except ε α) := fun a b =>
  match a, b with
  | Except.ok x, Except.ok y =>
    if h : x = y then isTrue (by rw [h]) else isFalse (fun hc => h (Except.ok.inj hc))
  | Except.ok _, Except.error _ => isFalse (fun hc => Except.noConfusion hc)
  | Except.error _, Except.ok _ => isFalse (fun hc => Except.noConfusion hc)
  | Except.error x, Except.error y =>
    if h : x = y then isTrue (by rw [h]) else isFalse (fun hc => h (Except.error.inj hc))

/-- The object state after a `getNextCandle` call. -/
def stepNext (s : PState) : PState :=
  (getNextCandle s).2

/-- An all-zero file of `n` bytes. -/
def zeros (n : Nat) : List Nat :=
  List.replicate n 0

/-- The parser state produced by opening a 208-byte all-zero file:
version 0 (so the 60-byte record size), cursor at `148 - 60 = 88`. -/
def sOpen208 : PState :=
  { version := 0
    symbol := zeros 12
    period := 0
    start := 0
    candleNumber := 0
    byteOffset := 88
    candleByteSize := 60
    filesize := 208
    file := zeros 208 }

/-- The state after the first `getNextCandle` on the 208-byte zero file. -/
def sB : PState :=
  { sOpen208 with byteOffset := 148, candleNumber := 1 }

/-- A state with `candleNumber = 0` but `byteOffset = 208`, reached from
`sOpen208` by two `getNextCandle` calls followed by `getCandleNumber 0`
(the seek updates only `candleNumber`). -/
def sC8lit : PState :=
  { sOpen208 with byteOffset := 208, candleNumber := 0 }

/-- A 300-byte file with format version 400 (bytes `144, 1` little-endian
at offset 0), period 1 at offset 80 and zeroes elsewhere. -/
def fileC4 : List Nat :=
  [144, 1, 0, 0] ++ zeros 76 ++ [1, 0, 0, 0] ++ zeros 216

/-- The parser state produced by opening `fileC4`: version 400, so the
44-byte legacy record size and initial offset `148 - 44 = 104`. -/
def sC4open : PState :=
  { version := 400
    symbol := zeros 12
    period := 1
    start := 0
    candleNumber := 0
    byteOffset := 104
    candleByteSize := 44
    filesize := 300
    file := fileC4 }

/-- A state with `byteOffset = 208` and `candleNumber = 2`, reached from
`sOpen208` by two `getNextCandle` calls. -/
def sB2 : PState :=
  { sOpen208 with byteOffset := 208, candleNumber := 2 }

/-- The state after `getCandleNumber 0` from `sB2`: the seek stores candle
number 0 but leaves the 208 offset in place. -/
def sC8 : PState :=
  (getCandleNumber (stepNext (stepNext sOpen208)) 0).2

/-- The cursor relation the code actually maintains along sequential
reads: the stored offset is one record size ahead of
`148 + (candleNumber - 1) * candleByteSize`, with a nonnegative candle
number and a positive record size. -/
abbrev cursorLinked (s : PState) : Prop :=
  ((s.byteOffset : Rat) = 148 + (s.candleNumber - 1) * (s.candleByteSize : Rat)) ∧
  0 ≤ s.candleNumber ∧ 0 < s.candleByteSize

/-- Evaluation of the first forward step on the zero file: the cursor
advances to the header end and to candle number one. -/
theorem getNextCandle_sOpen208 : getNextCandle sOpen208 =
    (Except.ok (readCandle sB).1, sB) := by
  have hguard : sOpen208.byteOffset + sOpen208.candleByteSize ≤ sOpen208.filesize := by
    norm_num [sOpen208]
  have hstate : ({ sOpen208 with
      byteOffset := sOpen208.byteOffset + sOpen208.candleByteSize
      candleNumber := sOpen208.candleNumber + 1 } : PState) = sB := by
    simp only [sOpen208, sB]
    norm_num
  rw [getNextCandle, if_pos hguard, hstate]
  decide

example : openFile (zeros 208) = Except.ok sOpen208 := by decide
example : exceptIsOk (getNextCandle sOpen208).1 = true := by decide
example : (getNextCandle sOpen208).2.byteOffset = 148 := by decide
example : (getPrevCandle sB).1 = Except.error Err.startOfFile := by decide
example : getCandleNumber sOpen208 100 =
    (Except.error Err.fileTooSmall, { sOpen208 with candleNumber := 100 }) := by
  rw [getCandleNumber, if_neg]
  norm_num [sOpen208]

/-- C6: at open time, for every file of size at least 148 bytes, the header
is decoded from fixed version-independent offsets: `version` is the 4-byte
little-endian signed int at offset 0; `symbol` is the 12 raw bytes at offset
68 kept as-is with trailing padding preserved; `period` is the 4-byte
little-endian signed int at offset 80; and `start` is the 4-byte
little-endian signed int at offset 148 multiplied by 1000. -/
theorem header_decode_spec (file : List Nat) (hlen : 148 ≤ file.length) :
    ∃ s : PState, openFile file = Except.ok s ∧
      s.version = readInt32LE (bufferOf file 0 4) ∧
      s.symbol = bufferOf file 68 12 ∧
      s.period = readInt32LE (bufferOf file 80 4) ∧
      s.start = readInt32LE (bufferOf file 148 4) * 1000 := by
  have h : ¬ ((file.length : Int) < 148) := by
    omega
  simp only [openFile]
  rw [if_neg h]
  exact ⟨_, rfl, rfl, rfl, rfl, rfl⟩

/-- C6 witness: the concrete 300-byte version-400 file opens and its header
fields decode from the absolute offsets. -/
theorem header_decode_witness :
    ∃ s : PState, openFile fileC4 = Except.ok s ∧
      s.version = readInt32LE (bufferOf fileC4 0 4) ∧
      s.symbol = bufferOf fileC4 68 12 ∧
      s.period = readInt32LE (bufferOf fileC4 80 4) ∧
      s.start = readInt32LE (bufferOf fileC4 148 4) * 1000 :=
  header_decode_spec fileC4 (by decide)

/-- C7: at open time the record byte size is 44 exactly when the decoded
version equals the legacy code 400 and 60 for any other version (no third
size), and the cursor starts at `byteOffset = 148 - candleByteSize` with
candle number 0. -/
theorem record_size_and_cursor_init (file : List Nat) (s : PState)
    (h : openFile file = Except.ok s) :
    s.candleByteSize = (if s.version = 400 then 44 else 60) ∧
    (s.candleByteSize = 44 ∨ s.candleByteSize = 60) ∧
    s.byteOffset = 148 - s.candleByteSize ∧
    s.candleNumber = 0 := by
  rw [openFile] at h
  split at h
  · exact absurd h (by simp)
  · have hs := (Except.ok.inj h).symm
    subst hs
    by_cases hv : readInt32LE (bufferOf file 0 4) = 400 <;>
      simp [hv]

/-- C7 witness: opening the concrete version-400 file yields the 44-byte
record size and the `148 - 44` initial cursor. -/
theorem record_size_witness :
    sC4open.candleByteSize = (if sC4open.version = 400 then 44 else 60) ∧
    (sC4open.candleByteSize = 44 ∨ sC4open.candleByteSize = 60) ∧
    sC4open.byteOffset = 148 - sC4open.candleByteSize ∧
    sC4open.candleNumber = 0 :=
  record_size_and_cursor_init fileC4 sC4open (by decide)

/-- C10: every record decode clamps the stored `byteOffset` up to the
148-byte header end first (and that mutation persists in the returned
state), every field of the active table is decoded at that clamped base
offset, and every field's read therefore starts at a byte offset of at
least 148 — never inside the header. -/
theorem readCandle_clamp_spec (s : PState) :
    (readCandle s).2.byteOffset = max s.byteOffset 148 ∧
    148 ≤ (readCandle s).2.byteOffset ∧
    (readCandle s).1 = (parserData s.version).map
      (fun kd => (kd.1, decodeField s.version s.file (max s.byteOffset 148) kd.2)) ∧
    (∀ kd, kd ∈ parserData s.version →
      148 ≤ (readCandle s).2.byteOffset + (kd.2.position : Int)) := by
  have hmax : (if s.byteOffset < 148 then (148 : Int) else s.byteOffset) = max s.byteOffset 148 := by
    rcases lt_or_le s.byteOffset 148 with h | h
    · rw [if_pos h, max_eq_right h.le]
    · rw [if_neg (not_lt.mpr h), max_eq_left h]
  refine ⟨?_, ?_, ?_, ?_⟩
  · simp only [readCandle, hmax]
  · simp only [readCandle, hmax]
    exact le_max_right _ _
  · simp only [readCandle, hmax]
  · intro kd _
    simp only [readCandle, hmax]
    have h1 : (148 : Int) ≤ max s.byteOffset 148 := le_max_right _ _
    have h2 : (0 : Int) ≤ (kd.2.position : Int) := Int.ofNat_nonneg _
    omega

/-- C10 witness: on the freshly opened zero file (stored offset 88, below
the header end) the decode state is clamped to 148 and the timestamp
field's read starts exactly at 148. -/
theorem readCandle_clamp_witness :
    (readCandle sOpen208).2.byteOffset = max sOpen208.byteOffset 148 ∧
    148 ≤ (readCandle sOpen208).2.byteOffset + ((⟨none, 4, 0, FieldType.date⟩ : FieldSpec).position : Int) :=
  ⟨(readCandle_clamp_spec sOpen208).1,
   (readCandle_clamp_spec sOpen208).2.2.2 (FieldKey.timestamp, ⟨none, 4, 0, FieldType.date⟩) (by decide)⟩

/-- C5: every `date`-kind entry of either field table is a 4-byte field
read from disk (not a constant), and decoding it reads a 4-byte
little-endian signed integer at `byteOffset + position`, multiplying by
1000 exactly when the version is the legacy code 400 and using the raw
value unmodified for any other version. -/
theorem date_decode_spec (version : Int) (file : List Nat) (off : Int)
    (k : FieldKey) (d : FieldSpec)
    (hmem : (k, d) ∈ parserData version) (hdate : d.ftype = FieldType.date) :
    d.size = 4 ∧ d.value = none ∧
    decodeField version file off d =
      Value.dateV (if version = 400
        then readInt32LE (bufferOf file (off + (d.position : Int)) 4) * 1000
        else readInt32LE (bufferOf file (off + (d.position : Int)) 4)) := by
  rw [parserData] at hmem
  by_cases hv : version = 400
  · rw [if_pos hv] at hmem
    subst hv
    fin_cases hmem <;> simp_all [decodeField, parseDate]
  · rw [if_neg hv] at hmem
    fin_cases hmem <;> simp_all [decodeField, parseDate]

/-- C5 witness: the legacy version's timestamp field is 4 bytes and decodes
with the seconds-to-milliseconds scaling, and version 0's field does not
scale. -/
theorem date_decode_witness :
    ((⟨none, 4, 0, FieldType.date⟩ : FieldSpec).size = 4 ∧
     (⟨none, 4, 0, FieldType.date⟩ : FieldSpec).value = none ∧
     decodeField 400 (zeros 208) 148 ⟨none, 4, 0, FieldType.date⟩ =
       Value.dateV (if (400 : Int) = 400
         then readInt32LE (bufferOf (zeros 208) (148 + (((⟨none, 4, 0, FieldType.date⟩ : FieldSpec).position : Nat) : Int)) 4) * 1000
         else readInt32LE (bufferOf (zeros 208) (148 + (((⟨none, 4, 0, FieldType.date⟩ : FieldSpec).position : Nat) : Int)) 4))) :=
  date_decode_spec 400 (zeros 208) 148 FieldKey.timestamp ⟨none, 4, 0, FieldType.date⟩ (by decide) (by decide)

/-- The header-end clamp in `readCandle`, written as a `max`. -/
theorem clampEq (a : Int) : (if a < 148 then (148 : Int) else a) = max a 148 := by
  rcases lt_or_le a 148 with h | h
  · rw [if_pos h, max_eq_right h.le]
  · rw [if_neg (not_lt.mpr h), max_eq_left h]

/-- The state returned by `readCandle`: the input state with the offset
clamped up to the header end. -/
theorem readCandle_snd (s : PState) :
    (readCandle s).2 = { s with byteOffset := max s.byteOffset 148 } := by
  rw [readCandle]
  simp only [clampEq]

/-- Evaluation of `sC8` to a literal state. -/
theorem sC8_eq : sC8 = sC8lit := by
  have h1 : stepNext sOpen208 = sB := by
    rw [stepNext, getNextCandle_sOpen208]
  have hguard : sB.byteOffset + sB.candleByteSize ≤ sB.filesize := by
    norm_num [sB, sOpen208]
  have hstate : ({ sB with
      byteOffset := sB.byteOffset + sB.candleByteSize
      candleNumber := sB.candleNumber + 1 } : PState) = sB2 := by
    simp only [sB, sB2, sOpen208]
    norm_num
  have h2 : stepNext sB = sB2 := by
    rw [stepNext, getNextCandle, if_pos hguard, hstate]
    decide
  rw [sC8, h1, h2, getCandleNumber,
    if_pos (show (148 : Rat) + 0 * (({ sB2 with candleNumber := 0 } : PState).candleByteSize : Rat) <
      (({ sB2 with candleNumber := 0 } : PState).filesize : Rat) by norm_num [sB2, sOpen208])]
  decide

/-- C8 (amended): `getNextCandle` throws the end-of-file error exactly when
one more record does not fit below the file size, and otherwise advances
the cursor by one record (decoding at the advanced, clamped offset);
`getPrevCandle` throws the start-of-file error exactly when one record back
would cross the header end, and otherwise retreats by one record; in the
freshly opened state `getPrevCandle` always throws the start-of-file
error. -/
theorem next_prev_guards_amended (s : PState) :
    ((getNextCandle s).1 = Except.error Err.endOfFile ↔
       s.filesize < s.byteOffset + s.candleByteSize) ∧
    (s.byteOffset + s.candleByteSize ≤ s.filesize →
       exceptIsOk (getNextCandle s).1 = true ∧
       (getNextCandle s).2.byteOffset = max (s.byteOffset + s.candleByteSize) 148 ∧
       (getNextCandle s).2.candleNumber = s.candleNumber + 1) ∧
    ((getPrevCandle s).1 = Except.error Err.startOfFile ↔
       s.byteOffset - s.candleByteSize < 148) ∧
    (148 ≤ s.byteOffset - s.candleByteSize →
       exceptIsOk (getPrevCandle s).1 = true ∧
       (getPrevCandle s).2.byteOffset = s.byteOffset - s.candleByteSize ∧
       (getPrevCandle s).2.candleNumber = s.candleNumber - 1) ∧
    (∀ file, openFile file = Except.ok s →
       (getPrevCandle s).1 = Except.error Err.startOfFile) := by
  refine ⟨?_, ?_, ?_, ?_, ?_⟩
  · rw [getNextCandle]
    by_cases hn : s.byteOffset + s.candleByteSize ≤ s.filesize
    · rw [if_pos hn]
      simp only [exceptIsOk]
      constructor
      · intro hc
        exact absurd hc (by simp)
      · intro hc
        omega
    · rw [if_neg hn]
      simp only []
      constructor
      · intro _
        omega
      · intro _
        trivial
  · intro hn
    rw [getNextCandle, if_pos hn]
    refine ⟨rfl, ?_, ?_⟩
    · show (readCandle _).2.byteOffset = _
      rw [readCandle_snd]
    · show (readCandle _).2.candleNumber = _
      rw [readCandle_snd]
  · rw [getPrevCandle]
    by_cases hp : 148 ≤ s.byteOffset - s.candleByteSize
    · rw [if_pos hp]
      constructor
      · intro hc
        exact absurd hc (by simp)
      · intro hc
        omega
    · rw [if_neg hp]
      constructor
      · intro _
        omega
      · intro _
        rfl
  · intro hp
    rw [getPrevCandle, if_pos hp]
    refine ⟨rfl, ?_, ?_⟩
    · show (readCandle _).2.byteOffset = _
      rw [readCandle_snd]
      show max (s.byteOffset - s.candleByteSize) 148 = _
      exact max_eq_left hp
    · show (readCandle _).2.candleNumber = _
      rw [readCandle_snd]
  · intro file hopen
    rw [openFile] at hopen
    split at hopen
    · exact absurd hopen (by simp)
    · have hs := (Except.ok.inj hopen).symm
      subst hs
      rw [getPrevCandle]
      rw [if_neg ?hneg]
      case hneg =>
        by_cases hv : readInt32LE (bufferOf file 0 4) = 400 <;> simp [hv]

/-- C8 witness: the guards and cursor updates evaluated on concrete
states — a successful forward step from the opened zero file, a successful
backward step from offset 208, and the start-of-file error in the freshly
opened state. -/
theorem next_prev_guards_witness :
    exceptIsOk (getNextCandle sOpen208).1 = true ∧
    (getNextCandle sOpen208).2.candleNumber = sOpen208.candleNumber + 1 ∧
    exceptIsOk (getPrevCandle sB2).1 = true ∧
    (getPrevCandle sB2).2.byteOffset = sB2.byteOffset - sB2.candleByteSize ∧
    (getPrevCandle sOpen208).1 = Except.error Err.startOfFile := by
  have h1 := next_prev_guards_amended sOpen208
  have h2 := next_prev_guards_amended sB2
  exact ⟨(h1.2.1 (by decide)).1,
         (h1.2.1 (by decide)).2.2,
         (h2.2.2.2.1 (by decide)).1,
         (h2.2.2.2.1 (by decide)).2.1,
         h1.2.2.2.2 (zeros 208) (by decide)⟩

/-- C8 counterexample: a reachable state whose stored candle number is 0
(reached by two forward steps and then `getCandleNumber 0`) on which
`getPrevCandle` succeeds, because the stale byte offset 208 is still two
records past the header end — refuting "getPrevCandle at record index 0
fails with the start-of-file error" read over all states. -/
theorem prev_at_index_zero_counterexample :
    sC8 = (getCandleNumber (stepNext (stepNext sOpen208)) 0).2 ∧
    openFile (zeros 208) = Except.ok sOpen208 ∧
    sC8.candleNumber = 0 ∧
    sC8.byteOffset = 208 ∧
    exceptIsOk (getPrevCandle sC8).1 = true :=
  ⟨rfl, by decide, by rw [sC8_eq]; rfl, by rw [sC8_eq]; rfl, by rw [sC8_eq]; decide⟩

/-- C9 (amended): from any state whose offset is at least the header end
(every state that has completed a decode) with a nonnegative record size,
a successful `getNextCandle` immediately followed by `getPrevCandle`
succeeds and returns the cursor to the exact record it started from. -/
theorem next_prev_roundtrip_amended (s : PState) (hbo : 148 ≤ s.byteOffset)
    (hsz : 0 ≤ s.candleByteSize)
    (hok : exceptIsOk (getNextCandle s).1 = true) :
    exceptIsOk (getPrevCandle (getNextCandle s).2).1 = true ∧
    (getPrevCandle (getNextCandle s).2).2.byteOffset = s.byteOffset ∧
    (getPrevCandle (getNextCandle s).2).2.candleNumber = s.candleNumber := by
  by_cases hn : s.byteOffset + s.candleByteSize ≤ s.filesize
  case neg =>
    rw [getNextCandle, if_neg hn] at hok
    exact absurd hok (by simp [exceptIsOk])
  have hbo2 : (getNextCandle s).2.byteOffset = s.byteOffset + s.candleByteSize := by
    rw [getNextCandle, if_pos hn]
    show (readCandle _).2.byteOffset = _
    rw [readCandle_snd]
    show max (s.byteOffset + s.candleByteSize) 148 = _
    exact max_eq_left (by omega)
  have hcn2 : (getNextCandle s).2.candleNumber = s.candleNumber + 1 := by
    rw [getNextCandle, if_pos hn]
    show (readCandle _).2.candleNumber = _
    rw [readCandle_snd]
  have hsz2 : (getNextCandle s).2.candleByteSize = s.candleByteSize := by
    rw [getNextCandle, if_pos hn]
    show (readCandle _).2.candleByteSize = _
    rw [readCandle_snd]
  have hguard : 148 ≤ (getNextCandle s).2.byteOffset - (getNextCandle s).2.candleByteSize := by
    rw [hbo2, hsz2]
    omega
  rw [getPrevCandle, if_pos hguard]
  refine ⟨rfl, ?_, ?_⟩
  · show (readCandle _).2.byteOffset = _
    rw [readCandle_snd]
    show max ((getNextCandle s).2.byteOffset - (getNextCandle s).2.candleByteSize) 148 = _
    rw [max_eq_left hguard, hbo2, hsz2]
    omega
  · show (readCandle _).2.candleNumber = _
    rw [readCandle_snd]
    show (getNextCandle s).2.candleNumber - 1 = _
    rw [hcn2]
    ring

/-- C9 witness: the round trip evaluated from the state at offset 148 on
the zero file. -/
theorem next_prev_roundtrip_witness :
    exceptIsOk (getPrevCandle (getNextCandle sB).2).1 = true ∧
    (getPrevCandle (getNextCandle sB).2).2.byteOffset = sB.byteOffset ∧
    (getPrevCandle (getNextCandle sB).2).2.candleNumber = sB.candleNumber :=
  next_prev_roundtrip_amended sB (by decide) (by decide) (by decide)

/-- C9 counterexample: from the freshly opened zero file (offset 88, below
the header end) `getNextCandle` succeeds, but the immediately following
`getPrevCandle` throws the start-of-file error and the cursor stays at
offset 148 instead of returning to 88 — refuting the round trip over all
states. -/
theorem next_prev_roundtrip_counterexample :
    openFile (zeros 208) = Except.ok sOpen208 ∧
    exceptIsOk (getNextCandle sOpen208).1 = true ∧
    (getPrevCandle (getNextCandle sOpen208).2).1 = Except.error Err.startOfFile ∧
    (getPrevCandle (getNextCandle sOpen208).2).2.byteOffset = 148 ∧
    sOpen208.byteOffset = 88 :=
  ⟨by decide, by decide, by decide, by decide, rfl⟩

/-- C1 (amended): the constructor establishes
`byteOffset = 148 + (candleNumber - 1) * candleByteSize`, successful
`getNextCandle` and `getPrevCandle` calls preserve it, and a successful
`getCandleNumber` leaves the stored offset unchanged apart from the clamp
up to 148 (it never stores the freshly computed offset), so the claimed
equality `byteOffset = 148 + candleNumber * candleByteSize` holds after no
positioning operation. -/
theorem cursor_offset_invariant_amended :
    (∀ file s, openFile file = Except.ok s → cursorLinked s) ∧
    (∀ s, cursorLinked s → exceptIsOk (getNextCandle s).1 = true →
       cursorLinked (getNextCandle s).2) ∧
    (∀ s, cursorLinked s → exceptIsOk (getPrevCandle s).1 = true →
       cursorLinked (getPrevCandle s).2) ∧
    (∀ s n, (getCandleNumber s n).2.byteOffset = s.byteOffset ∨
            (getCandleNumber s n).2.byteOffset = max s.byteOffset 148) := by
  refine ⟨?_, ?_, ?_, ?_⟩
  · intro file s h
    rw [openFile] at h
    split at h
    · exact absurd h (by simp)
    · have hs := (Except.ok.inj h).symm
      subst hs
      by_cases hv : readInt32LE (bufferOf file 0 4) = 400 <;>
        simp only [cursorLinked, hv, if_pos, if_neg, ite_true, ite_false] <;>
        refine ⟨?_, le_refl 0, by norm_num⟩ <;>
        push_cast <;>
        ring
  · intro s hInv hok
    obtain ⟨hinv, hcn, hsz⟩ := hInv
    by_cases hn : s.byteOffset + s.candleByteSize ≤ s.filesize
    case neg =>
      rw [getNextCandle, if_neg hn] at hok
      exact absurd hok (by simp [exceptIsOk])
    have hszQ : (0 : Rat) < (s.candleByteSize : Rat) := by exact_mod_cast hsz
    have hstep : ((s.byteOffset + s.candleByteSize : Int) : Rat) =
        148 + s.candleNumber * (s.candleByteSize : Rat) := by
      push_cast
      linarith [hinv]
    have hge : (148 : Rat) ≤ ((s.byteOffset + s.candleByteSize : Int) : Rat) := by
      rw [hstep]
      nlinarith [mul_nonneg hcn hszQ.le]
    have hgeZ : (148 : Int) ≤ s.byteOffset + s.candleByteSize := by exact_mod_cast hge
    have hbo2 : (getNextCandle s).2.byteOffset = s.byteOffset + s.candleByteSize := by
      rw [getNextCandle, if_pos hn]
      show (readCandle _).2.byteOffset = _
      rw [readCandle_snd]
      show max (s.byteOffset + s.candleByteSize) 148 = _
      exact max_eq_left hgeZ
    have hcn2 : (getNextCandle s).2.candleNumber = s.candleNumber + 1 := by
      rw [getNextCandle, if_pos hn]
      show (readCandle _).2.candleNumber = _
      rw [readCandle_snd]
    have hsz2 : (getNextCandle s).2.candleByteSize = s.candleByteSize := by
      rw [getNextCandle, if_pos hn]
      show (readCandle _).2.candleByteSize = _
      rw [readCandle_snd]
    refine ⟨?_, ?_, ?_⟩
    · rw [hbo2, hcn2, hsz2, hstep]
      ring
    · rw [hcn2]
      linarith
    · rw [hsz2]
      exact hsz
  · intro s hInv hok
    obtain ⟨hinv, hcn, hsz⟩ := hInv
    by_cases hp : 148 ≤ s.byteOffset - s.candleByteSize
    case neg =>
      rw [getPrevCandle, if_neg hp] at hok
      exact absurd hok (by simp [exceptIsOk])
    have hszQ : (0 : Rat) < (s.candleByteSize : Rat) := by exact_mod_cast hsz
    have hstep : ((s.byteOffset - s.candleByteSize : Int) : Rat) =
        148 + (s.candleNumber - 2) * (s.candleByteSize : Rat) := by
      push_cast
      linarith [hinv]
    have hpQ : (148 : Rat) ≤ ((s.byteOffset - s.candleByteSize : Int) : Rat) := by
      exact_mod_cast hp
    have hcn2pos : (0 : Rat) ≤ s.candleNumber - 2 := by
      by_contra hneg
      push_neg at hneg
      have := mul_neg_of_neg_of_pos hneg hszQ
      rw [hstep] at hpQ
      linarith
    have hbo2 : (getPrevCandle s).2.byteOffset = s.byteOffset - s.candleByteSize := by
      rw [getPrevCandle, if_pos hp]
      show (readCandle _).2.byteOffset = _
      rw [readCandle_snd]
      show max (s.byteOffset - s.candleByteSize) 148 = _
      exact max_eq_left hp
    have hcn2 : (getPrevCandle s).2.candleNumber = s.candleNumber - 1 := by
      rw [getPrevCandle, if_pos hp]
      show (readCandle _).2.candleNumber = _
      rw [readCandle_snd]
    have hsz2 : (getPrevCandle s).2.candleByteSize = s.candleByteSize := by
      rw [getPrevCandle, if_pos hp]
      show (readCandle _).2.candleByteSize = _
      rw [readCandle_snd]
    refine ⟨?_, ?_, ?_⟩
    · rw [hbo2, hcn2, hsz2, hstep]
      ring
    · rw [hcn2]
      linarith
    · rw [hsz2]
      exact hsz
  · intro s n
    rw [getCandleNumber]
    split
    · right
      show (readCandle _).2.byteOffset = _
      rw [readCandle_snd]
    · left
      rfl

/-- C1 witness: the relation the code maintains, evaluated on the opened
zero file and after its first forward step. -/
theorem cursor_offset_invariant_witness :
    cursorLinked sOpen208 ∧ cursorLinked (getNextCandle sOpen208).2 := by
  have h0 : cursorLinked sOpen208 :=
    cursor_offset_invariant_amended.1 (zeros 208) sOpen208 (by decide)
  exact ⟨h0, cursor_offset_invariant_amended.2.1 sOpen208 h0 (by decide)⟩

/-- C1 counterexample: after the first successful `getNextCandle` on the
opened zero file the stored offset is 148 while
`148 + candleNumber * candleByteSize = 208` — the claimed equality fails
after a successful positioning call. -/
theorem cursor_offset_invariant_counterexample :
    openFile (zeros 208) = Except.ok sOpen208 ∧
    exceptIsOk (getNextCandle sOpen208).1 = true ∧
    (getNextCandle sOpen208).2.byteOffset = 148 ∧
    (getNextCandle sOpen208).2.candleNumber = 1 ∧
    ¬ (((getNextCandle sOpen208).2.byteOffset : Rat) =
        148 + (getNextCandle sOpen208).2.candleNumber *
          ((getNextCandle sOpen208).2.candleByteSize : Rat)) := by
  have hnext : (getNextCandle sOpen208).2 = sB := by
    rw [getNextCandle_sOpen208]
  refine ⟨by decide, by decide, ?_, ?_, ?_⟩ <;> rw [hnext]
  · rfl
  · rfl
  · norm_num [sB, sOpen208]

/-- C2 (code bug): on the opened version-400 file, `getCandleNumber 2`
passes its bound check and stores candle number 2, but decodes at the stale
stored offset (104, clamped to 148) because the freshly computed
`newByteOffset = 148 + 2 * 44 = 236` is never assigned to the stored
offset — the decode does not happen at the newly computed position. -/
theorem seek_decodes_at_stale_offset :
    openFile fileC4 = Except.ok sC4open ∧
    exceptIsOk (getCandleNumber sC4open 2).1 = true ∧
    (getCandleNumber sC4open 2).2.candleNumber = 2 ∧
    (getCandleNumber sC4open 2).2.byteOffset = 148 ∧
    (getCandleNumber sC4open 2).1 =
      Except.ok (readCandle { sC4open with candleNumber := 2 }).1 ∧
    ((148 : Int) ≠ 148 + 2 * 44) := by
  have hseek : getCandleNumber sC4open 2 =
      (Except.ok (readCandle { sC4open with candleNumber := 2 }).1,
       (readCandle { sC4open with candleNumber := 2 }).2) := by
    rw [getCandleNumber, if_pos (by norm_num [sC4open])]
  refine ⟨by decide, ?_, ?_, ?_, ?_, by decide⟩
  · rw [hseek]
    rfl
  · rw [hseek]
    decide
  · rw [hseek]
    decide
  · rw [hseek]

/-- C3 (amended): a failed `getNextCandle` or `getPrevCandle` leaves the
state exactly as it was, but a failed `getCandleNumber` has already stored
the requested index in `candleNumber` before the bound check; only the
byte offset is left unchanged on a failed seek. -/
theorem failure_state_amended :
    (∀ s, exceptIsOk (getNextCandle s).1 = false → (getNextCandle s).2 = s) ∧
    (∀ s, exceptIsOk (getPrevCandle s).1 = false → (getPrevCandle s).2 = s) ∧
    (∀ s n, exceptIsOk (getCandleNumber s n).1 = false →
       (getCandleNumber s n).2 = { s with candleNumber := n }) := by
  refine ⟨?_, ?_, ?_⟩
  · intro s h
    by_cases hn : s.byteOffset + s.candleByteSize ≤ s.filesize
    · rw [getNextCandle, if_pos hn] at h
      exact absurd h (by simp [exceptIsOk])
    · rw [getNextCandle, if_neg hn]
  · intro s h
    by_cases hp : 148 ≤ s.byteOffset - s.candleByteSize
    · rw [getPrevCandle, if_pos hp] at h
      exact absurd h (by simp [exceptIsOk])
    · rw [getPrevCandle, if_neg hp]
  · intro s n h
    rw [getCandleNumber] at h ⊢
    split at h
    · exact absurd h (by simp [exceptIsOk])
    · rename_i hcond
      rw [if_neg hcond]

/-- C3 witness: the amended statement evaluated on concrete failing calls —
a forward step past the end of the file, a backward step at the header
end, and a seek far past the end of the file. -/
theorem failure_state_witness :
    (getNextCandle sC8lit).2 = sC8lit ∧
    (getPrevCandle sB).2 = sB ∧
    (getCandleNumber sOpen208 100).2 = { sOpen208 with candleNumber := 100 } := by
  refine ⟨failure_state_amended.1 sC8lit (by decide),
          failure_state_amended.2.1 sB (by decide),
          failure_state_amended.2.2 sOpen208 100 ?_⟩
  rw [getCandleNumber, if_neg (by norm_num [sOpen208])]
  rfl

/-- C3 counterexample: `getCandleNumber 100` on the opened 208-byte zero
file throws the too-small error, yet the caller observes `candleNumber =
100` afterwards where it was 0 before the call — the cursor state does not
equal the state before the failed call. -/
theorem failure_mutation_counterexample :
    openFile (zeros 208) = Except.ok sOpen208 ∧
    exceptIsOk (getCandleNumber sOpen208 100).1 = false ∧
    (getCandleNumber sOpen208 100).2.candleNumber = 100 ∧
    sOpen208.candleNumber = 0 := by
  have h : getCandleNumber sOpen208 100 =
      (Except.error Err.fileTooSmall, { sOpen208 with candleNumber := 100 }) := by
    rw [getCandleNumber, if_neg (by norm_num [sOpen208])]
  exact ⟨by decide, by rw [h]; rfl, by rw [h], rfl⟩

/-- Completeness of the fuel-indexed search: fuel one larger than the
attempt budget always answers, and it answers exactly what the budgeted
recursion computes. -/
theorem getCandleAtFuel_complete (n : Nat) :
    ∀ (s : PState) (d sd : Int) (i : Nat), 50 - i ≤ n →
      getCandleAtFuel (n + 1) s d sd i = some (getCandleAtAux n s d sd i) := by
  induction n with
  | zero =>
    intro s d sd i hn
    rw [getCandleAtFuel, getCandleAtAux]
    cases getCandleAtStep s d sd i with
    | done r => rfl
    | again s1 anchor hlt => omega
  | succ n ih =>
    intro s d sd i hn
    rw [getCandleAtFuel, getCandleAtAux]
    cases getCandleAtStep s d sd i with
    | done r => rfl
    | again s1 anchor hlt => exact ih s1 d anchor (i + 1) (by omega)

/-- C4: the timestamp search terminates — its recursion depth is bounded
by the remaining attempt budget, so fuel `50 - i + 1` always suffices for
the fuel-indexed search to answer with exactly the result of
`getCandleAt`; and once 50 attempts are exhausted no recursion remains:
the call seeks once, returns that candidate on an exact timestamp match
and otherwise fails with the candle-not-found error. -/
theorem locate_search_bounded :
    (∀ (s : PState) (d sd : Int) (i : Nat),
       getCandleAtFuel (50 - i + 1) s d sd i = some (getCandleAt s d sd i)) ∧
    (∀ (s : PState) (d sd : Int) (i : Nat), 50 ≤ i →
       getCandleAt s d sd i =
         (match getCandleNumber s (s.candleNumber +
             ((d : Rat) - (sd : Rat)) / (60000 * (s.period : Rat))) with
          | (Except.error e, s1) => (Except.error e, s1)
          | (Except.ok c, s1) =>
            if candleTimestamp c = d then (Except.ok c, s1)
            else (Except.error Err.candleNotFound, s1))) := by
  constructor
  · intro s d sd i
    exact getCandleAtFuel_complete (50 - i) s d sd i (le_refl _)
  · intro s d sd i hge
    have h0 : 50 - i = 0 := by omega
    rw [getCandleAt, h0, getCandleAtAux]
    delta getCandleAtStep
    dsimp only
    cases hp : getCandleNumber s (s.candleNumber +
        ((d : Rat) - (sd : Rat)) / (60000 * (s.period : Rat))) with
    | mk r s1 =>
      cases r with
      | error e => rfl
      | ok c =>
        dsimp only
        by_cases hts : candleTimestamp c = d
        · rw [if_pos hts]
          rw [if_pos hts]
        · rw [if_neg hts,
            dif_neg (show ¬ (i < 50 ∧ candleTimestamp c ≠ 0) from fun hc => absurd hc.1 (by omega)),
            dif_neg (show ¬ i < 50 by omega)]
          rw [if_neg hts]

/-- C4 witness: with the attempts already exhausted (`i = 50`), the search
on the opened version-400 file for a timestamp one period after the anchor
seeks once, finds the zero timestamp of record 1, does not recurse, and
fails with the candle-not-found error. -/
theorem locate_search_witness :
    (getCandleAt sC4open 60000 0 50).1 = Except.error Err.candleNotFound := by
  have h := locate_search_bounded.2 sC4open 60000 0 50 (le_refl 50)
  rw [h]
  have harg : sC4open.candleNumber +
      (((60000 : Int) : Rat) - ((0 : Int) : Rat)) / (60000 * (sC4open.period : Rat)) = 1 := by
    norm_num [sC4open]
  rw [harg]
  have hseek : getCandleNumber sC4open 1 =
      (Except.ok (readCandle { sC4open with candleNumber := 1 }).1,
       (readCandle { sC4open with candleNumber := 1 }).2) := by
    rw [getCandleNumber, if_pos (by norm_num [sC4open])]
  rw [hseek]
  dsimp only
  rw [if_neg (by decide)]
